import Mathlib

/-!
Shallow embedding of `src/a.py`, a Porter-stemmer module in which the
methods of the original `PorterStemmer` class were flattened into
top-level functions.  The flattening left the module broken in several
ways that the embedding reproduces faithfully, at Python runtime
semantics:

* The module defines no global variables `k0`, `offset`, `word` or `k`
  (the only assignments to such names are locals of the never-called
  `__init__` at lines 35-49).  A reference to one of these names inside
  a function that does not bind it raises `NameError` at call time.
  This affects `vowelinstem` (line 101 reads `offset`), `step1ab`
  (lines 174/180 pass `k0`), `step1c` (line 198 passes `k0`), `step2`,
  `step3` and `step4` (every dispatch branch passes `k0` to `ends`),
  and `step5` (line 310 passes `k0` to `m`).
* Several calls pass too few arguments and raise `TypeError` at call
  time: `cons(i - 1)` at line 59 (cons takes 3), `cons(i)` at lines
  78/86/94 inside `m` (so `m` raises unless its first loop exits at
  once), `m()` at line 149 inside `r` (m takes 2), `doublec(k)` at
  line 313 (doublec takes 3), and in `stem` the calls
  `step4(word, k)` / `step5(word, k)` at lines 341-342 (both take 3).
* Python passes `str` and `int` arguments as immutable values, so the
  rebindings `offset = k - length` (line 138 in `ends`), `word = ...` /
  `k = ...` (lines 144-145 in `setto`) and `word = ...` (line 199 in
  `step1c`) change only the callee's locals and are invisible to the
  caller.  The `...Call` / `...Locals` / `...Frame` definitions below
  model a call's caller-observable effect next to the callee's final
  local state.
* Additionally the file as a whole cannot even be loaded by CPython:
  line 193 dedents an `elif` to column 8 while the open blocks sit at
  columns 0, 4 and 12, an `IndentationError`.  The offending lines
  183-194 of `step1ab` are unreachable under the call semantics above
  (both branches of line 173 raise `NameError` first), so each function
  below is embedded as if its `def` were compiled individually.

Errors are represented by `PyErr`; a function that raises is embedded
as `Except.error`.  Indexing `w[i]` and slicing `w[a:b]` follow
Python's negative-index translation and slice clamping (`pyIdx`,
`pySlice`).
-/

set_option linter.unusedVariables false

namespace Porter

/-- Python runtime errors raised by this module: unbound name,
wrong-arity call, index out of range. -/
inductive PyErr where
  | nameError
  | typeError
  | indexError
  deriving DecidableEq

/-- Python indexing `w[i]`: a negative index is first translated by
`+ len(w)`; an index outside `[0, len w)` after translation raises
`IndexError`. -/
def pyIdx (w : List Char) (i : Int) : Except PyErr Char :=
  if i < 0 then
    if i + w.length < 0 then .error .indexError
    else
      match w[(i + w.length).toNat]? with
      | some c => .ok c
      | none => .error .indexError
  else
    match w[i.toNat]? with
    | some c => .ok c
    | none => .error .indexError

/-- Python slicing `w[a:b]` (step 1): negative bounds are translated by
`+ len(w)` and clamped at 0; the result is the elements with translated
index in `[a, b)`, clamped to the list. -/
def pySlice (w : List Char) (a b : Int) : List Char :=
  let lo : Int := if a < 0 then max (a + w.length) 0 else a
  let hi : Int := if b < 0 then max (b + w.length) 0 else b
  (w.take hi.toNat).drop lo.toNat

/-- `cons(i, word, k0)`, lines 51-60.  Reads `word[i]`; the five vowels
give `False`; `y` at position `k0` gives `True`; for `y` elsewhere
line 59 evaluates `cons(i - 1)` passing 1 argument to the 3-parameter
function, which raises `TypeError`; every other character gives
`True`. -/
def cons (i : Int) (word : List Char) (k0 : Int) : Except PyErr Bool :=
  match pyIdx word i with
  | .error e => .error e
  | .ok c =>
    if c = 'a' ∨ c = 'e' ∨ c = 'i' ∨ c = 'o' ∨ c = 'u' then .ok false
    else if c = 'y' then
      if i = k0 then .ok true else .error .typeError
    else .ok true

/-- `m(k0, offset)`, lines 62-97.  The first loop returns `n = 0` at
once when `k0 > offset`; otherwise line 78 evaluates `cons(i)` with 1
of 3 required arguments and raises `TypeError`. -/
def m (k0 offset : Int) : Except PyErr Nat :=
  if k0 > offset then .ok 0 else .error .typeError

/-- `vowelinstem(k0)`, lines 99-104.  Line 101 evaluates
`range(k0, offset + 1)` but no binding for `offset` exists in any
enclosing scope, so every call raises `NameError`. -/
def vowelinstem (k0 : Int) : Except PyErr Bool :=
  .error .nameError

/-- `doublec(j, word, k0)`, lines 106-112.  Returns `False` when
`j < k0 + 1` or when `word[j] != word[j-1]`; otherwise line 112
evaluates `cons(j)` with 1 of 3 required arguments, raising
`TypeError`. -/
def doublec (j : Int) (word : List Char) (k0 : Int) : Except PyErr Bool :=
  if j < k0 + 1 then .ok false
  else
    match pyIdx word j with
    | .error e => .error e
    | .ok a =>
      match pyIdx word (j - 1) with
      | .error e => .error e
      | .ok b => if a ≠ b then .ok false else .error .typeError

/-- `cvc(i, word, k0)`, lines 114-127.  The guard at line 122
short-circuits to `False` when `i < k0 + 2`; otherwise it evaluates
`cons(i)` with 1 of 3 required arguments, raising `TypeError`. -/
def cvc (i : Int) (word : List Char) (k0 : Int) : Except PyErr Bool :=
  if i < k0 + 2 then .ok false else .error .typeError

/-- `ends(s, word, k, k0, offset)`, lines 129-139.  Reads
`s[len(s) - 1]` and `word[k]`; returns `0` when the last characters
differ, when `len(s) > k - k0 + 1`, or when the slice
`word[k - len(s) + 1 : k + 1]` differs from `s`; otherwise returns `1`.
The assignment `offset = k - length` at line 138 rebinds only the
local parameter `offset` (see `endsFrame`). -/
def ends (s word : List Char) (k k0 offset : Int) : Except PyErr Bool :=
  match pyIdx s ((s.length : Int) - 1) with
  | .error e => .error e
  | .ok lastS =>
    match pyIdx word k with
    | .error e => .error e
    | .ok wk =>
      if lastS ≠ wk then .ok false
      else if (s.length : Int) > k - k0 + 1 then .ok false
      else if pySlice word (k - (s.length : Int) + 1) (k + 1) ≠ s then .ok false
      else .ok true

/-- Caller-observable result of `r = ends(s, word, k, k0, offset)`: the
returned value paired with the caller's `offset` variable after the
call.  Python passes `int` by immutable value and line 138 rebinds only
the callee's local, so the caller's `offset` is unchanged. -/
def endsFrame (s word : List Char) (k k0 offset : Int) :
    Except PyErr (Bool × Int) :=
  match ends s word k k0 offset with
  | .error e => .error e
  | .ok b => .ok (b, offset)

/-- Final values of `setto`'s locals `word` and `k` after lines
144-145: `word[:offset+1] + s + word[offset+len(s)+1:]` and
`offset + len(s)`.  These locals are discarded when `setto` returns. -/
def settoLocals (s word : List Char) (offset : Int) : List Char × Int :=
  (pySlice word 0 (offset + 1) ++ s ++
     pySlice word (offset + (s.length : Int) + 1) word.length,
   offset + (s.length : Int))

/-- Caller-observable effect of the statement
`setto(s, word, k, offset)` (lines 141-145): `str` and `int` arguments
are immutable, the assignments rebind only `setto`'s locals
(`settoLocals`), and the function returns `None`, so the caller's
`word` and `k` are exactly as before the call. -/
def settoCall (s word : List Char) (k offset : Int) : List Char × Int :=
  let _locals := settoLocals s word offset
  (word, k)

/-- `r(s, word, k, offset)`, lines 147-150.  Line 149 evaluates `m()`
with 0 of 2 required arguments, raising `TypeError` on every call. -/
def r (s word : List Char) (k offset : Int) : Except PyErr Unit :=
  .error .typeError

/-- `step1ab(word, k)`, lines 152-194.  Line 173 reads `word[k]`; then
both branches immediately call `ends(..., k0, offset)` (line 174 when
the character is `'s'`, line 180 otherwise) and no binding for `k0`
exists, so every call raises `NameError` after the read.  Lines 183-194
(including the inconsistently indented `elif` at line 193) are
unreachable. -/
def step1ab (word : List Char) (k : Int) : Except PyErr Unit :=
  match pyIdx word k with
  | .error e => .error e
  | .ok _ => .error .nameError

/-- `step1c(word, k)`, lines 196-199.  Line 198 evaluates the argument
list of `ends("y", word, k, k0, offset)` and `k0` is unbound, so every
call raises `NameError` before the `y -> i` rewrite at line 199 can
run. -/
def step1c (word : List Char) (k : Int) : Except PyErr Unit :=
  .error .nameError

/-- Caller-observable effect of the statement `step1c(word, k)`: the
caller's `word` and `k` (unchanged - the line 199 rewrite would rebind
only the callee's local even if it were reached) paired with the
outcome of the call. -/
def step1cCall (word : List Char) (k : Int) :
    (List Char × Int) × Except PyErr Unit :=
  ((word, k), step1c word k)

/-- `step2(word, k)`, lines 201-237.  Reads `word[k - 1]`; every
dispatch branch (characters a, c, e, l, o, s, t, g) immediately calls
`ends(..., k0, offset)` with `k0` unbound, raising `NameError`; any
other character falls through and returns `None`. -/
def step2 (word : List Char) (k : Int) : Except PyErr Unit :=
  match pyIdx word (k - 1) with
  | .error e => .error e
  | .ok c =>
    if c = 'a' ∨ c = 'c' ∨ c = 'e' ∨ c = 'l' ∨ c = 'o' ∨ c = 's' ∨
       c = 't' ∨ c = 'g' then
      .error .nameError
    else .ok ()

/-- `step3(word, k)`, lines 239-251.  Reads `word[k]`; the dispatch
branches (characters e, i, l, s) call `ends(..., k0, offset)` with `k0`
unbound, raising `NameError`; any other character returns `None`. -/
def step3 (word : List Char) (k : Int) : Except PyErr Unit :=
  match pyIdx word k with
  | .error e => .error e
  | .ok c =>
    if c = 'e' ∨ c = 'i' ∨ c = 'l' ∨ c = 's' then .error .nameError
    else .ok ()

/-- `step4(word, k, offset)`, lines 253-302.  Reads `word[k - 1]`;
every dispatch branch (characters a, c, e, i, l, n, o, s, t, u, v, z)
immediately calls `ends(..., k0, offset)` with `k0` unbound, raising
`NameError`; any other character hits the final `else: return` at
line 300.  The measure gate at line 301 and the truncation `k = offset`
at line 302 are never reached. -/
def step4 (word : List Char) (k offset : Int) : Except PyErr Unit :=
  match pyIdx word (k - 1) with
  | .error e => .error e
  | .ok c =>
    if c = 'a' ∨ c = 'c' ∨ c = 'e' ∨ c = 'i' ∨ c = 'l' ∨ c = 'n' ∨
       c = 'o' ∨ c = 's' ∨ c = 't' ∨ c = 'u' ∨ c = 'v' ∨ c = 'z' then
      .error .nameError
    else .ok ()

/-- `step5(word, k, offset)`, lines 304-314.  Rebinds its local
`offset` to `k` (line 308), reads `word[k]`; when the character is
`'e'` line 310 calls `m(k0, offset)` with `k0` unbound (`NameError`);
otherwise when it is `'l'` line 313 calls `doublec(k)` with 1 of 3
required arguments (`TypeError`); any other character returns
`None`. -/
def step5 (word : List Char) (k offset : Int) : Except PyErr Unit :=
  match pyIdx word k with
  | .error e => .error e
  | .ok c =>
    if c = 'e' then .error .nameError
    else if c = 'l' then .error .typeError
    else .ok ()

/-- The call `step4(word, k)` at line 341 of `stem`: it passes 2
arguments to the 3-parameter `step4`, so the call itself raises
`TypeError` before `step4`'s body runs. -/
def step4Call (word : List Char) (k : Int) : Except PyErr Unit :=
  .error .typeError

/-- The call `step5(word, k)` at line 342 of `stem`: it passes 2
arguments to the 3-parameter `step5`, so the call itself raises
`TypeError` before `step5`'s body runs. -/
def step5Call (word : List Char) (k : Int) : Except PyErr Unit :=
  .error .typeError

/-- `stem(p, i, j, word, k, k0, offset)`, lines 316-343.  Rebinds
`word = p`, `k = offset`, `k0 = i` (lines 326-328; note `k` is taken
from `offset`, not from `j`, and `j` is never read).  When
`k <= k0 + 1` it returns `word` - the whole of `p` - unchanged
(line 330); otherwise it runs the pipeline of lines 337-342, whose
first call `step1ab(word, k)` always raises, and would finally return
`word[k0 : k + 1]`. -/
def stem (p : List Char) (i j : Int) (word : List Char) (k k0 offset : Int) :
    Except PyErr (List Char) :=
  let word := p
  let k := offset
  let k0 := i
  if k ≤ k0 + 1 then .ok word
  else
    step1ab word k >>= fun _ =>
    step1c word k >>= fun _ =>
    step2 word k >>= fun _ =>
    step3 word k >>= fun _ =>
    step4Call word k >>= fun _ =>
    step5Call word k >>= fun _ =>
    .ok (pySlice word k0 (k + 1))

/-! ## Theorems about the claims -/

/-- C1: the claim says `stem` never throws on well-formed lowercase
input and always returns a result string.  The code contradicts this
(and its own docstrings): on any region longer than two characters the
pipeline's first call `step1ab(word, k)` raises `NameError` because
`k0` is unbound there - shown here on the module's own demo input
`"processing"` (and the module itself cannot even be loaded, due to the
indentation error at line 193). -/
theorem stem_raises_processing :
    stem [ 'p', 'r', 'o', 'c', 'e', 's', 's', 'i', 'n', 'g' ] 0 9 [] 0 0 9 =
      .error .nameError := rfl

/-- C2: a word of length at most 2 (called with `i = 0` and
`offset = len(w) - 1`, so that the active region is the whole word) is
returned unchanged by `stem`: the guard `k <= k0 + 1` at line 329 fires
and the pipeline is never entered (the result is `ok`, whereas every
pipeline step raises). -/
theorem stem_short_input_unchanged (w word : List Char) (j k k0 : Int)
    (h : w.length ≤ 2) :
    stem w 0 j word k k0 ((w.length : Int) - 1) = .ok w := by
  simp only [stem]
  split
  · rfl
  · exfalso; omega

/-- Witness for C2 at the spec's own example `stem("is") == "is"`. -/
theorem stem_short_input_unchanged_witness :
    stem [ 'i', 's' ] 0 0 [] 0 0 ((List.length [ 'i', 's' ] : Int) - 1) =
      .ok [ 'i', 's' ] :=
  stem_short_input_unchanged [ 'i', 's' ] [] 0 0 0 (by decide)

/-- C3: the claim says `stem` maps the canonical Porter vectors
`caresses -> caress`, `ponies -> poni`, `ties -> ti`,
`processing -> process`.  The code instead raises `NameError` on all
four inputs (`k0` is unbound in `step1ab`): it never returns any of the
listed results. -/
theorem stem_reference_vectors_raise :
    stem [ 'c', 'a', 'r', 'e', 's', 's', 'e', 's' ] 0 7 [] 0 0 7 =
        .error .nameError ∧
    stem [ 'p', 'o', 'n', 'i', 'e', 's' ] 0 5 [] 0 0 5 =
        .error .nameError ∧
    stem [ 't', 'i', 'e', 's' ] 0 3 [] 0 0 3 = .error .nameError ∧
    stem [ 'p', 'r', 'o', 'c', 'e', 's', 's', 'i', 'n', 'g' ] 0 9 [] 0 0 9 =
        .error .nameError :=
  ⟨rfl, rfl, rfl, rfl⟩

/-- C4: the claim says `stem(stem(w)) == stem(w)` for every valid word.
On the three-letter word `"cat"` the inner call already raises
`NameError` (unbound `k0` in `step1ab`), so the equation has no value:
idempotence fails on the code. -/
theorem stem_idempotence_fails_cat :
    stem [ 'c', 'a', 't' ] 0 2 [] 0 0 2 = .error .nameError := rfl

/-- C5: the claim says `length(stem(w)) <= length(w)` for every input
word.  On `"dog"` the call raises `NameError` (unbound `k0` in
`step1ab`) and returns no string at all, so the length inequality fails
on the code. -/
theorem stem_length_monotonic_fails_dog :
    stem [ 'd', 'o', 'g' ] 0 2 [] 0 0 2 = .error .nameError := rfl

/-- C6: the claim says step 4 leaves a word ending in a listed suffix
such as `-al` unchanged when the measure condition fails.  On the
`-al` word `"metal"` the dispatch at line 255 matches `'a'` and the
call `ends("al", word, k, k0, offset)` raises `NameError` (`k0` is
unbound), so step 4 neither truncates nor passes the word through. -/
theorem step4_raises_on_al_suffix :
    step4 [ 'm', 'e', 't', 'a', 'l' ] 4 0 = .error .nameError := rfl

/-- C8: the claim (and the docstring of `cons`) says a `y` preceded by
a consonant is classified as a vowel.  On `cons(1, "by", 0)` the code
instead evaluates `cons(i - 1)` with 1 of 3 required arguments and
raises `TypeError`. -/
theorem cons_raises_y_after_consonant :
    cons 1 [ 'b', 'y' ] 0 = .error .typeError := rfl

/-- C9: a call to `setto` leaves the caller's buffer `word` and end
cursor `k` exactly as they were (the suffix replacement computed in
`settoLocals` is discarded with the callee's frame), and likewise a
call to `step1c` leaves the caller's `word` and `k` unchanged (its
`y -> i` rewrite would rebind only the callee's local). -/
theorem setto_and_step1c_frame :
    ∀ (s word : List Char) (k offset : Int),
      settoCall s word k offset = (word, k) ∧
        (step1cCall word k).1 = (word, k) :=
  fun _ _ _ _ => ⟨rfl, rfl⟩

/-- C10: the result of `stem(p, i, j, word, k, k0, offset)` never
depends on the parameter `j`: line 327 takes the region end from
`offset` and `j` is never read, so two calls differing only in `j`
return identical results (whether `ok` or `error`). -/
theorem stem_independent_of_j :
    ∀ (p : List Char) (i j jAlt : Int) (word : List Char) (k k0 offset : Int),
      stem p i j word k k0 offset = stem p i jAlt word k k0 offset :=
  fun _ _ _ _ _ _ _ _ => rfl

/-- C7 counterexample: the claim says that on success `ends` sets the
stem-boundary cursor to `k - len(suffix)` *in the state observed by its
caller*.  Calling `ends("s", "cats", k = 3, k0 = 0)` with the caller's
`offset` equal to 99 succeeds, yet the caller's `offset` is still 99
afterwards, not `k - len(s) = 2`: line 138 rebinds only the callee's
local. -/
theorem ends_caller_cursor_counterexample :
    endsFrame [ 's' ] [ 'c', 'a', 't', 's' ] 3 0 99 = .ok (true, 99) ∧
      (99 : Int) ≠ 3 - 1 :=
  ⟨rfl, by decide⟩

/-! ## Helper lemmas for the `ends` characterization -/

/-- `pyIdx` at a nonnegative in-range index returns the element. -/
theorem pyIdx_ok (w : List Char) (n : Nat) (h : n < w.length) :
    pyIdx w (n : Int) = .ok w[n] := by
  unfold pyIdx
  rw [if_neg (by omega), Int.toNat_ofNat, List.getElem?_eq_getElem h]

/-- `pySlice` at nonnegative bounds is take-then-drop. -/
theorem pySlice_natCast (w : List Char) (a b : Nat) :
    pySlice w (a : Int) (b : Int) = (w.take b).drop a := by
  simp only [pySlice]
  rw [if_neg (by omega), if_neg (by omega), Int.toNat_ofNat, Int.toNat_ofNat]

/-- The code's slice bound `word[k - len(s) + 1 : k + 1]` rewritten to
Nat take/drop form, under `len(s) <= k + 1`. -/
theorem pySlice_shift (word : List Char) (k L : Nat) (hL : L ≤ k + 1) :
    pySlice word ((k : Int) - L + 1) ((k : Int) + 1) =
      (word.take (k + 1)).drop (k + 1 - L) := by
  have e1 : ((k : Int) - L + 1) = ((k + 1 - L : Nat) : Int) := by omega
  have e2 : ((k : Int) + 1) = ((k + 1 : Nat) : Int) := by omega
  rw [e1, e2, pySlice_natCast]

theorem isSuffixOf_eq_true {s t : List Char} (h : s <:+ t) :
    s.isSuffixOf t = true := by
  simpa [List.isSuffixOf_iff_suffix] using h

theorem isSuffixOf_eq_false {s t : List Char} (h : ¬ s <:+ t) :
    s.isSuffixOf t = false := by
  refine Bool.eq_false_iff.mpr fun hb => h ?_
  exact List.isSuffixOf_iff_suffix.mp hb

/-- The last element of a nonempty suffix of the region
`word[k0 .. k]` is `word[k]` (stated through total lookups). -/
theorem suffix_region_last {s word : List Char} {k k0 : Nat}
    (hs : s ≠ []) (hk : k < word.length) (hk0 : k0 ≤ k)
    (h : s <:+ (word.take (k + 1)).drop k0) :
    s[s.length - 1]? = word[k]? := by
  have hR : (word.take (k + 1)).drop k0 ≠ [] := h.ne_nil hs
  have hRlen : ((word.take (k + 1)).drop k0).length = k + 1 - k0 := by
    rw [List.length_drop, List.length_take]; omega
  calc s[s.length - 1]? = s.getLast? := (List.getLast?_eq_getElem? s).symm
    _ = some (s.getLast hs) := List.getLast?_eq_getLast s hs
    _ = some (((word.take (k + 1)).drop k0).getLast hR) := by
          rw [h.getLast hs]
    _ = ((word.take (k + 1)).drop k0).getLast? :=
          (List.getLast?_eq_getLast _ hR).symm
    _ = ((word.take (k + 1)).drop k0)[((word.take (k + 1)).drop k0).length - 1]? :=
          List.getLast?_eq_getElem? _
    _ = ((word.take (k + 1)).drop k0)[k - k0]? := by rw [hRlen]; congr 1; omega
    _ = (word.take (k + 1))[k0 + (k - k0)]? := List.getElem?_drop _ _ _
    _ = (word.take (k + 1))[k]? := by congr 1; omega
    _ = word[k]? := List.getElem?_take_of_lt (by omega)

/-- Evaluation of `ends` once its two character reads are known. -/
theorem ends_eval (s word : List Char) (k k0 offset : Int) (ls wk : Char)
    (h1 : pyIdx s ((s.length : Int) - 1) = .ok ls)
    (h2 : pyIdx word k = .ok wk) :
    ends s word k k0 offset =
      if ls ≠ wk then .ok false
      else if (s.length : Int) > k - k0 + 1 then .ok false
      else if pySlice word (k - (s.length : Int) + 1) (k + 1) ≠ s then .ok false
      else .ok true := by
  unfold ends
  rw [h1, h2]

/-- C7 (amended): `ends` returns `ok true` exactly when `s` is a
length-aware exact tail match of the active region `word[k0 .. k]` and
`ok false` otherwise; in either case the caller's cursor `offset` is
unchanged, the update at line 138 being local to `ends`. -/
theorem ends_tail_match (s word : List Char) (k k0 : Nat) (offset : Int)
    (hs : s ≠ []) (hk0 : k0 ≤ k) (hk : k < word.length) :
    endsFrame s word (k : Int) (k0 : Int) offset =
      .ok (s.isSuffixOf ((word.take (k + 1)).drop k0), offset) := by
  have hL : 0 < s.length := List.length_pos.mpr hs
  have hRlen : ((word.take (k + 1)).drop k0).length = k + 1 - k0 := by
    rw [List.length_drop, List.length_take]; omega
  have e1 : ((s.length : Int) - 1) = ((s.length - 1 : Nat) : Int) := by omega
  have h1 : pyIdx s ((s.length : Int) - 1) = .ok s[s.length - 1] :=
    (congrArg (pyIdx s) e1).trans (pyIdx_ok s (s.length - 1) (by omega))
  have h2 : pyIdx word (k : Int) = .ok word[k] := pyIdx_ok word k hk
  have hchar : s <:+ (word.take (k + 1)).drop k0 →
      s[s.length - 1] = word[k] := by
    intro hsuf
    have hq := suffix_region_last hs hk hk0 hsuf
    rw [List.getElem?_eq_getElem (by omega), List.getElem?_eq_getElem hk] at hq
    exact Option.some.inj hq
  unfold endsFrame
  rw [ends_eval s word (k : Int) (k0 : Int) offset s[s.length - 1] word[k] h1 h2]
  by_cases c1 : s[s.length - 1] = word[k]
  · rw [if_neg (not_not_intro c1)]
    by_cases c2 : s.length ≤ k + 1 - k0
    · rw [if_neg (by omega : ¬ ((s.length : Int) > (k : Int) - (k0 : Int) + 1))]
      have hdrop : ((word.take (k + 1)).drop k0).drop
            (((word.take (k + 1)).drop k0).length - s.length) =
          pySlice word ((k : Int) - (s.length : Int) + 1) ((k : Int) + 1) := by
        rw [pySlice_shift word k s.length (by omega), hRlen, List.drop_drop]
        congr 1
        omega
      by_cases c3 : pySlice word ((k : Int) - (s.length : Int) + 1) ((k : Int) + 1) = s
      · rw [if_neg (not_not_intro c3)]
        have hsuf : s <:+ (word.take (k + 1)).drop k0 := by
          rw [List.suffix_iff_eq_drop, hdrop]
          exact c3.symm
        rw [isSuffixOf_eq_true hsuf]
      · rw [if_pos c3]
        have hnot : ¬ s <:+ (word.take (k + 1)).drop k0 := by
          intro hsuf
          exact c3 (hdrop.symm.trans (List.suffix_iff_eq_drop.mp hsuf).symm)
        rw [isSuffixOf_eq_false hnot]
    · rw [if_pos (by omega : (s.length : Int) > (k : Int) - (k0 : Int) + 1)]
      have hnot : ¬ s <:+ (word.take (k + 1)).drop k0 := by
        intro hsuf
        have := hsuf.length_le
        rw [hRlen] at this
        omega
      rw [isSuffixOf_eq_false hnot]
  · rw [if_pos c1]
    have hnot : ¬ s <:+ (word.take (k + 1)).drop k0 := fun hsuf => c1 (hchar hsuf)
    rw [isSuffixOf_eq_false hnot]

/-- Witness for the amended C7 at `ends("s", "cats", k = 3, k0 = 0)`:
the suffix matches, the call returns true and the caller's cursor is
untouched. -/
theorem ends_tail_match_witness :
    endsFrame [ 's' ] [ 'c', 'a', 't', 's' ] ((3 : Nat) : Int) ((0 : Nat) : Int) 0 =
      .ok (List.isSuffixOf [ 's' ]
        ((List.take (3 + 1) [ 'c', 'a', 't', 's' ]).drop 0), 0) :=
  ends_tail_match [ 's' ] [ 'c', 'a', 't', 's' ] 3 0 0 (by decide) (by decide)
    (by decide)

end Porter
